import Mathlib

/-!
# Verification of the hevy-automation script (`src/main.py`)

Shallow embedding of the pure logic of `main.py`:

* `calculate_next_target` — the progression engine (lines 69–133);
* `group_by_routine` — the routine grouper (lines 61–67);
* `get_weekly_workouts` — the page/cutoff control flow (lines 26–59), with the
  HTTP layer abstracted into a page-fetch environment and ISO-timestamp parsing
  abstracted into a parse function supplied as a parameter (both quantified
  over in the theorems).

Python floats are modelled as exact rationals (`ℚ`); Python's `round(x, 2)` is
modelled as ideal round-half-to-even at two decimal places.  String-formatted
outputs (`detail`, `target_display`, the `last` summary) carry numeric
payloads, so the numbers rendered into those strings are modelled as fields of
the result structure rather than as formatted text.
-/

namespace Hevy

/-- Global progression settings: `GOAL_REPS = 12` (main.py line 18). -/
def GOAL_REPS : ℕ := 12

/-- `PROGRESSION_RPE_TRIGGER = 9` (main.py line 19). -/
def PROGRESSION_RPE_TRIGGER : ℚ := 9

/-- `WEIGHT_INCREMENT_KG = 2.5` (main.py line 24). -/
def WEIGHT_INCREMENT_KG : ℚ := 2.5

/-- One performed set, as delivered by the API: each numeric field may be
absent (`None`). `reps` is a non-negative integer; `weight_kg` and `rpe`
are reals, modelled as rationals. -/
structure WSet where
  reps : Option ℕ
  weight_kg : Option ℚ
  rpe : Option ℚ
deriving DecidableEq

/-- Round-half-to-even of a rational to an integer: the model of Python's
banker's rounding (`round`). -/
def roundHalfEven (q : ℚ) : ℤ :=
  let n := ⌊q⌋
  let frac := q - n
  if frac < 1/2 then n
  else if 1/2 < frac then n + 1
  else if n % 2 = 0 then n else n + 1

/-- Python's `round(x, 2)`: round to two decimal places, half to even. -/
def round2 (q : ℚ) : ℚ := (roundHalfEven (q * 100) : ℚ) / 100

/-- The sort key of the `max` call on main.py line 73:
`lambda s: s.get('weight_kg') or 0` (a `None` weight counts as `0`). -/
def keyW (s : WSet) : ℚ := s.weight_kg.getD 0

/-- Python's `max(xs, key := f)` on a list: `none` on the empty list, else the
first element attaining the maximal key (a later element replaces the current
best only when its key is strictly greater). -/
def pymax (key : WSet → ℚ) : List WSet → Option WSet
  | [] => none
  | x :: xs => some (xs.foldl (fun best y => if key best < key y then y else best) x)

/-- Numeric payload of the `detail` string of a result
(main.py lines 100, 108, 119, 127). -/
inductive Detail where
  /-- `f"Add {WEIGHT_INCREMENT_KG} kg"` -/
  | addKg (inc : ℚ)
  /-- `f"Keep {display_weight} kg"` -/
  | keep (w : ℚ)
  /-- `"Performance Dip"` -/
  | performanceDip
deriving DecidableEq

/-- Numeric payload of the `target_display` string of a result
(main.py lines 101, 109, 120, 128). -/
inductive TargetDisplay where
  /-- `f"Target: {disp_new} kg"` (INCREASE WEIGHT) -/
  | targetKg (w : ℚ)
  /-- `f"Target: {n} reps"` (ADD REPS) -/
  | targetReps (n : ℕ)
  /-- `f"Reset to: {disp_new} kg"` (DELOAD) -/
  | resetKg (w : ℚ)
  /-- `"Squeeze 1 more rep"` (MAINTAIN) -/
  | squeeze
deriving DecidableEq

/-- The result dict of `calculate_next_target` (main.py lines 98–133).
`lastReps`, `lastWeight`, `lastRpe` are the numbers rendered into the
`last` summary string `f"{reps} @ {display_weight} kg (RPE {rpe})"`
(the `int(x) if x.is_integer() else x` display trick does not change the
numeric value, so it is dropped from the model). -/
structure RecOut where
  exercise : String
  lastReps : ℕ
  lastWeight : ℚ
  lastRpe : ℚ
  action : String
  detail : Detail
  target : TargetDisplay
  badge_color : String
  text_color : String
deriving DecidableEq

/-- Body of `calculate_next_target` after the working set has been selected
(main.py lines 75–133): defaulting of absent fields, the `reps == 0` guard,
and the four-branch classification ladder. -/
def recommend_from (exercise_name : String) (working_set : WSet) :
    Option RecOut :=
  let reps := working_set.reps.getD 0
  let weight_kg := working_set.weight_kg.getD 0
  let current_weight := round2 weight_kg
  let rpe := working_set.rpe.getD 8
  if reps = 0 then none
  else if GOAL_REPS ≤ reps ∧ rpe ≤ PROGRESSION_RPE_TRIGGER then
    let new_weight := current_weight + WEIGHT_INCREMENT_KG
    some { exercise := exercise_name, lastReps := reps,
           lastWeight := current_weight, lastRpe := rpe,
           action := "INCREASE WEIGHT", detail := .addKg WEIGHT_INCREMENT_KG,
           target := .targetKg new_weight,
           badge_color := "#d4edda", text_color := "#155724" }
  else if reps < GOAL_REPS ∧ rpe < 9 then
    some { exercise := exercise_name, lastReps := reps,
           lastWeight := current_weight, lastRpe := rpe,
           action := "ADD REPS", detail := .keep current_weight,
           target := .targetReps (min (reps + 2) GOAL_REPS),
           badge_color := "#cce5ff", text_color := "#004085" }
  else if reps < GOAL_REPS - 4 ∧ 9.5 ≤ rpe then
    let new_weight := round2 (current_weight * 0.90)
    some { exercise := exercise_name, lastReps := reps,
           lastWeight := current_weight, lastRpe := rpe,
           action := "DELOAD", detail := .performanceDip,
           target := .resetKg new_weight,
           badge_color := "#f8d7da", text_color := "#721c24" }
  else
    some { exercise := exercise_name, lastReps := reps,
           lastWeight := current_weight, lastRpe := rpe,
           action := "MAINTAIN", detail := .keep current_weight,
           target := .squeeze,
           badge_color := "#e2e3e5", text_color := "#383d41" }

/-- `calculate_next_target(exercise_name, sets)` (main.py lines 69–133):
`None` on an empty set list, else classify the working set selected by
`max(sets, key=lambda s: s.get('weight_kg') or 0)` (main.py line 73). -/
def calculate_next_target (exercise_name : String) (sets : List WSet) :
    Option RecOut :=
  match pymax keyW sets with
  | none => none
  | some working_set => recommend_from exercise_name working_set

/-- Modelled from the spec: the reference-set policy the spec requires as
default ("the chronologically last set"), which is not in `src/main.py`.
Identical to `calculate_next_target` except that the reference set is the
last set of the list instead of the heaviest one. -/
def calculate_next_target_lastSet (exercise_name : String) (sets : List WSet) :
    Option RecOut :=
  match sets.getLast? with
  | none => none
  | some working_set => recommend_from exercise_name working_set

/-- One exercise of a workout: a name and its set list
(`ex.get('title')`, `ex.get('sets', [])`, main.py line 208). -/
structure Exercise where
  title : Option String
  sets : List WSet
deriving DecidableEq

/-- One workout record as delivered by the API: `title`, `start_time` and
`exercises` may each be absent. -/
structure Workout where
  title : Option String
  start_time : Option String
  exercises : List Exercise
deriving DecidableEq

/-- `w.get('title', 'Unknown Workout')` (main.py line 64). -/
def titleD (w : Workout) : String := w.title.getD "Unknown Workout"

/-- The loop body of `group_by_routine` (main.py lines 63–66): the Python
dict is modelled as an insertion-ordered association list; a key is inserted
only when not already present. -/
def groupGo (routines : List (String × Workout)) :
    List Workout → List (String × Workout)
  | [] => routines
  | w :: rest =>
    if (routines.lookup (titleD w)).isSome then groupGo routines rest
    else groupGo (routines ++ [(titleD w, w)]) rest

/-- `group_by_routine(workouts)` (main.py lines 61–67). -/
def group_by_routine (workouts : List Workout) : List (String × Workout) :=
  groupGo [] workouts

/-- Python's `s.endswith('Z')` (main.py line 44). -/
def endsWithZ (s : String) : Bool := s.data.getLast? == some 'Z'

/-- Python's `s.replace('Z', '+00:00')` (main.py line 45): every occurrence
of the character `Z` is replaced by the string `+00:00`. -/
def replaceZ (s : String) : String :=
  ⟨s.data.flatMap (fun c => if c == 'Z' then "+00:00".data else [c])⟩

/-- The timestamp normalization of main.py lines 43–45: replace the zone
marker `Z` by `+00:00` when the string ends with `Z`. -/
def normalizeZ (s : String) : String :=
  if endsWithZ s then replaceZ s else s

/-- Outcome of fetching one page (main.py lines 35–40): `error` covers a
non-success HTTP status, a network error and malformed JSON — each of which
breaks the page loop — and `ok` carries the decoded `workouts` array. -/
inductive PageFetch where
  | error
  | ok (workouts : List Workout)

/-- The inner workout loop of `get_weekly_workouts` (main.py lines 42–55):
given a timestamp parser (`datetime.fromisoformat`, abstracted as
`parse : String → Option ℤ`), skip workouts whose timestamp does not parse,
append those at or after the cutoff, and signal early return (`true`) at the
first workout older than the cutoff. -/
def scanPage (parse : String → Option ℤ) (cutoff : ℤ) (acc : List Workout) :
    List Workout → List Workout × Bool
  | [] => (acc, false)
  | w :: rest =>
    match parse (normalizeZ (w.start_time.getD "")) with
    | none => scanPage parse cutoff acc rest
    | some d =>
      if cutoff ≤ d then scanPage parse cutoff (acc ++ [w]) rest
      else (acc, true)

/-- The page loop of `get_weekly_workouts` (main.py lines 32–59): fetch each
page in turn; a page failure or an empty page breaks the loop, returning the
workouts accumulated so far; a workout older than the cutoff returns them
immediately. -/
def fetchPages (parse : String → Option ℤ) (cutoff : ℤ)
    (fetch : ℕ → PageFetch) (acc : List Workout) : List ℕ → List Workout
  | [] => acc
  | p :: ps =>
    match fetch p with
    | .error => acc
    | .ok [] => acc
    | .ok ws =>
      match scanPage parse cutoff acc ws with
      | (acc2, true) => acc2
      | (acc2, false) => fetchPages parse cutoff fetch acc2 ps

/-- `get_weekly_workouts()` (main.py lines 26–59): `for page_num in
range(1, 4)` over pages 1, 2, 3, starting from an empty accumulator. -/
def get_weekly_workouts (parse : String → Option ℤ) (cutoff : ℤ)
    (fetch : ℕ → PageFetch) : List Workout :=
  fetchPages parse cutoff fetch [] [1, 2, 3]

end Hevy

namespace Hevy

/-! ## Branch lemmas for the classification ladder -/

theorem recommend_from_increase (name : String) (ws : WSet)
    (hreps : GOAL_REPS ≤ ws.reps.getD 0)
    (hrpe : ws.rpe.getD 8 ≤ PROGRESSION_RPE_TRIGGER) :
    recommend_from name ws = some
      { exercise := name, lastReps := ws.reps.getD 0,
        lastWeight := round2 (ws.weight_kg.getD 0), lastRpe := ws.rpe.getD 8,
        action := "INCREASE WEIGHT", detail := .addKg WEIGHT_INCREMENT_KG,
        target := .targetKg (round2 (ws.weight_kg.getD 0) + WEIGHT_INCREMENT_KG),
        badge_color := "#d4edda", text_color := "#155724" } := by
  have h12 : (12 : ℕ) ≤ ws.reps.getD 0 := hreps
  have h0 : ¬ ws.reps.getD 0 = 0 := by omega
  simp only [recommend_from]
  rw [if_neg h0, if_pos ⟨hreps, hrpe⟩]

theorem recommend_from_addreps (name : String) (ws : WSet)
    (h1 : 1 ≤ ws.reps.getD 0)
    (hreps : ws.reps.getD 0 < GOAL_REPS)
    (hrpe : ws.rpe.getD 8 < 9) :
    recommend_from name ws = some
      { exercise := name, lastReps := ws.reps.getD 0,
        lastWeight := round2 (ws.weight_kg.getD 0), lastRpe := ws.rpe.getD 8,
        action := "ADD REPS", detail := .keep (round2 (ws.weight_kg.getD 0)),
        target := .targetReps (min (ws.reps.getD 0 + 2) GOAL_REPS),
        badge_color := "#cce5ff", text_color := "#004085" } := by
  have h0 : ¬ ws.reps.getD 0 = 0 := by omega
  have hni : ¬ (GOAL_REPS ≤ ws.reps.getD 0 ∧
      ws.rpe.getD 8 ≤ PROGRESSION_RPE_TRIGGER) :=
    fun h => absurd h.1 (not_le.2 hreps)
  simp only [recommend_from]
  rw [if_neg h0, if_neg hni, if_pos ⟨hreps, hrpe⟩]

theorem recommend_from_deload (name : String) (ws : WSet)
    (h1 : 1 ≤ ws.reps.getD 0)
    (hreps : ws.reps.getD 0 < GOAL_REPS - 4)
    (hrpe : 9.5 ≤ ws.rpe.getD 8) :
    recommend_from name ws = some
      { exercise := name, lastReps := ws.reps.getD 0,
        lastWeight := round2 (ws.weight_kg.getD 0), lastRpe := ws.rpe.getD 8,
        action := "DELOAD", detail := .performanceDip,
        target := .resetKg (round2 (round2 (ws.weight_kg.getD 0) * 0.90)),
        badge_color := "#f8d7da", text_color := "#721c24" } := by
  have h8 : ws.reps.getD 0 < 8 := hreps
  have h0 : ¬ ws.reps.getD 0 = 0 := by omega
  have h9 : (9 : ℚ) ≤ ws.rpe.getD 8 := le_trans (by norm_num) hrpe
  have hni : ¬ (GOAL_REPS ≤ ws.reps.getD 0 ∧
      ws.rpe.getD 8 ≤ PROGRESSION_RPE_TRIGGER) := by
    intro h
    have h12 : (12 : ℕ) ≤ ws.reps.getD 0 := h.1
    omega
  have hna : ¬ (ws.reps.getD 0 < GOAL_REPS ∧ ws.rpe.getD 8 < 9) :=
    fun h => absurd h.2 (not_lt.2 h9)
  simp only [recommend_from]
  rw [if_neg h0, if_neg hni, if_neg hna, if_pos ⟨hreps, hrpe⟩]

theorem recommend_from_maintain (name : String) (ws : WSet)
    (h1 : 1 ≤ ws.reps.getD 0)
    (hni : ¬ (GOAL_REPS ≤ ws.reps.getD 0 ∧
      ws.rpe.getD 8 ≤ PROGRESSION_RPE_TRIGGER))
    (hna : ¬ (ws.reps.getD 0 < GOAL_REPS ∧ ws.rpe.getD 8 < 9))
    (hnd : ¬ (ws.reps.getD 0 < GOAL_REPS - 4 ∧ 9.5 ≤ ws.rpe.getD 8)) :
    recommend_from name ws = some
      { exercise := name, lastReps := ws.reps.getD 0,
        lastWeight := round2 (ws.weight_kg.getD 0), lastRpe := ws.rpe.getD 8,
        action := "MAINTAIN", detail := .keep (round2 (ws.weight_kg.getD 0)),
        target := .squeeze,
        badge_color := "#e2e3e5", text_color := "#383d41" } := by
  have h0 : ¬ ws.reps.getD 0 = 0 := by omega
  simp only [recommend_from]
  rw [if_neg h0, if_neg hni, if_neg hna, if_neg hnd]

theorem calculate_eq_recommend (name : String) (sets : List WSet) (ws : WSet)
    (hmax : pymax keyW sets = some ws) :
    calculate_next_target name sets = recommend_from name ws := by
  simp [calculate_next_target, hmax]

end Hevy

namespace Hevy

/-! ## Claims about the classification ladder -/

/-- C2: whenever the reference set, after defaulting, has reps ≥ 12 (the
rep goal) and RPE ≤ 9 (the trigger), `calculate_next_target` returns the
INCREASE WEIGHT action with new target weight equal to the current weight
plus the configured increment of 2.5 kg. -/
theorem C2_increase_weight (name : String) (sets : List WSet) (ws : WSet)
    (hmax : pymax keyW sets = some ws)
    (hreps : GOAL_REPS ≤ ws.reps.getD 0)
    (hrpe : ws.rpe.getD 8 ≤ PROGRESSION_RPE_TRIGGER) :
    ∃ r, calculate_next_target name sets = some r ∧
      r.action = "INCREASE WEIGHT" ∧
      r.target = .targetKg (round2 (ws.weight_kg.getD 0) + WEIGHT_INCREMENT_KG) ∧
      WEIGHT_INCREMENT_KG = 2.5 := by
  rw [calculate_eq_recommend name sets ws hmax,
    recommend_from_increase name ws hreps hrpe]
  exact ⟨_, rfl, rfl, rfl, rfl⟩

/-- C2 witness: the set {reps 12, weight 50 kg, RPE 8} gets INCREASE WEIGHT
with target 50 + 2.5 kg. -/
theorem C2_increase_weight_witness :
    ∃ r, calculate_next_target "Bench Press" [⟨some 12, some 50, some 8⟩]
        = some r ∧
      r.action = "INCREASE WEIGHT" ∧
      r.target = .targetKg (round2 50 + WEIGHT_INCREMENT_KG) ∧
      WEIGHT_INCREMENT_KG = 2.5 :=
  C2_increase_weight "Bench Press" [⟨some 12, some 50, some 8⟩]
    ⟨some 12, some 50, some 8⟩ rfl (by norm_num [GOAL_REPS])
    (by norm_num [PROGRESSION_RPE_TRIGGER])

end Hevy

namespace Hevy

/-- C3 counterexample: the set {reps 0, weight 20 kg, RPE 7} satisfies
reps < 12 and RPE < 9 after defaulting, yet `calculate_next_target`
returns no recommendation at all (the `reps == 0` guard fires), so the
claim as stated fails. -/
theorem C3_counterexample :
    ((⟨some 0, some 20, some 7⟩ : WSet).reps.getD 0 < GOAL_REPS ∧
      (⟨some 0, some 20, some 7⟩ : WSet).rpe.getD 8 < 9) ∧
    calculate_next_target "Curl" [⟨some 0, some 20, some 7⟩] = none := by
  refine ⟨⟨by norm_num [GOAL_REPS], by norm_num⟩, ?_⟩
  norm_num [calculate_next_target, pymax, keyW, recommend_from]

/-- C3 (amended with reps ≥ 1): whenever the reference set, after
defaulting, has 1 ≤ reps < 12 and RPE < 9, `calculate_next_target` returns
the ADD REPS action with target reps min(reps + 2, 12) and the weight kept
unchanged. -/
theorem C3_add_reps (name : String) (sets : List WSet) (ws : WSet)
    (hmax : pymax keyW sets = some ws)
    (h1 : 1 ≤ ws.reps.getD 0)
    (hreps : ws.reps.getD 0 < GOAL_REPS)
    (hrpe : ws.rpe.getD 8 < 9) :
    ∃ r, calculate_next_target name sets = some r ∧
      r.action = "ADD REPS" ∧
      r.target = .targetReps (min (ws.reps.getD 0 + 2) GOAL_REPS) ∧
      r.detail = .keep (round2 (ws.weight_kg.getD 0)) := by
  rw [calculate_eq_recommend name sets ws hmax,
    recommend_from_addreps name ws h1 hreps hrpe]
  exact ⟨_, rfl, rfl, rfl, rfl⟩

/-- C3 witness: the set {reps 8, weight 40 kg, RPE 7} gets ADD REPS with
target min(8 + 2, 12) = 10 reps, keeping 40 kg. -/
theorem C3_add_reps_witness :
    ∃ r, calculate_next_target "Lat Pulldown" [⟨some 8, some 40, some 7⟩]
        = some r ∧
      r.action = "ADD REPS" ∧
      r.target = .targetReps (min (8 + 2) GOAL_REPS) ∧
      r.detail = .keep (round2 40) :=
  C3_add_reps "Lat Pulldown" [⟨some 8, some 40, some 7⟩]
    ⟨some 8, some 40, some 7⟩ rfl (by norm_num) (by norm_num [GOAL_REPS])
    (by norm_num)

/-- C4 counterexample: a set with missing reps (defaulted to 0 < 8), weight
60 kg and RPE 9.5 satisfies the claim's trigger, yet `calculate_next_target`
returns no recommendation at all (the `reps == 0` guard fires), so the
claim as stated fails. -/
theorem C4_counterexample :
    ((⟨none, some 60, some 9.5⟩ : WSet).reps.getD 0 < GOAL_REPS - 4 ∧
      9.5 ≤ (⟨none, some 60, some 9.5⟩ : WSet).rpe.getD 8) ∧
    calculate_next_target "Squat" [⟨none, some 60, some 9.5⟩] = none := by
  refine ⟨⟨by norm_num [GOAL_REPS], by norm_num⟩, ?_⟩
  norm_num [calculate_next_target, pymax, keyW, recommend_from]

/-- C4 (amended with reps ≥ 1): whenever the reference set, after
defaulting, has 1 ≤ reps < 8 and RPE ≥ 9.5, `calculate_next_target`
returns the DELOAD action with new target weight `round2 (current × 0.90)`;
in particular {reps 5, weight 60 kg, RPE 9.5} yields new target 54 kg. -/
theorem C4_deload (name : String) (sets : List WSet) (ws : WSet)
    (hmax : pymax keyW sets = some ws)
    (h1 : 1 ≤ ws.reps.getD 0)
    (hreps : ws.reps.getD 0 < GOAL_REPS - 4)
    (hrpe : 9.5 ≤ ws.rpe.getD 8) :
    ∃ r, calculate_next_target name sets = some r ∧
      r.action = "DELOAD" ∧
      r.target = .resetKg (round2 (round2 (ws.weight_kg.getD 0) * 0.90)) := by
  rw [calculate_eq_recommend name sets ws hmax,
    recommend_from_deload name ws h1 hreps hrpe]
  exact ⟨_, rfl, rfl, rfl⟩

/-- C4 witness: the set {reps 5, weight 60 kg, RPE 9.5} gets DELOAD with
new target 54 kg (= round2 (60 × 0.90)). -/
theorem C4_deload_witness :
    ∃ r, calculate_next_target "Squat" [⟨some 5, some 60, some 9.5⟩]
        = some r ∧
      r.action = "DELOAD" ∧ r.target = .resetKg 54 := by
  obtain ⟨r, hr, ha, ht⟩ := C4_deload "Squat" [⟨some 5, some 60, some 9.5⟩]
    ⟨some 5, some 60, some 9.5⟩ rfl (by norm_num) (by norm_num [GOAL_REPS])
    (by norm_num)
  refine ⟨r, hr, ha, ?_⟩
  rw [ht]
  norm_num [round2, roundHalfEven]

/-- C5: whenever the reference set, after defaulting, has reps ≥ 1 and
matches none of the INCREASE WEIGHT, ADD REPS and DELOAD triggers,
`calculate_next_target` returns the MAINTAIN action with the weight kept
unchanged. -/
theorem C5_maintain (name : String) (sets : List WSet) (ws : WSet)
    (hmax : pymax keyW sets = some ws)
    (h1 : 1 ≤ ws.reps.getD 0)
    (hni : ¬ (GOAL_REPS ≤ ws.reps.getD 0 ∧
      ws.rpe.getD 8 ≤ PROGRESSION_RPE_TRIGGER))
    (hna : ¬ (ws.reps.getD 0 < GOAL_REPS ∧ ws.rpe.getD 8 < 9))
    (hnd : ¬ (ws.reps.getD 0 < GOAL_REPS - 4 ∧ 9.5 ≤ ws.rpe.getD 8)) :
    ∃ r, calculate_next_target name sets = some r ∧
      r.action = "MAINTAIN" ∧
      r.detail = .keep (round2 (ws.weight_kg.getD 0)) ∧
      r.target = .squeeze := by
  rw [calculate_eq_recommend name sets ws hmax,
    recommend_from_maintain name ws h1 hni hna hnd]
  exact ⟨_, rfl, rfl, rfl, rfl⟩

/-- C5 witness: the set {reps 10, weight 30 kg, RPE 9} falls through all
three triggers and gets MAINTAIN, keeping 30 kg. -/
theorem C5_maintain_witness :
    ∃ r, calculate_next_target "Row" [⟨some 10, some 30, some 9⟩]
        = some r ∧
      r.action = "MAINTAIN" ∧ r.detail = .keep (round2 30) ∧
      r.target = .squeeze :=
  C5_maintain "Row" [⟨some 10, some 30, some 9⟩] ⟨some 10, some 30, some 9⟩
    rfl (by norm_num)
    (by norm_num [GOAL_REPS, PROGRESSION_RPE_TRIGGER])
    (by norm_num [GOAL_REPS])
    (by norm_num [GOAL_REPS])

/-- C6: `calculate_next_target` returns no recommendation on an empty set
list, and, whatever the other fields, returns no recommendation whenever
the selected working set has reps 0 after defaulting (missing reps count
as 0). -/
theorem C6_zero_reps_absent (name : String) :
    calculate_next_target name [] = none ∧
    ∀ sets ws, pymax keyW sets = some ws → ws.reps.getD 0 = 0 →
      calculate_next_target name sets = none := by
  refine ⟨rfl, ?_⟩
  intro sets ws hmax h0
  rw [calculate_eq_recommend name sets ws hmax]
  simp [recommend_from, h0]

/-- C6 witness: the empty list and a zero-rep set (here with weight 60 kg
and RPE 9.5) both yield no recommendation. -/
theorem C6_zero_reps_absent_witness :
    calculate_next_target "Plank" [] = none ∧
    calculate_next_target "Plank" [⟨some 0, some 60, some 9.5⟩] = none :=
  ⟨(C6_zero_reps_absent "Plank").1,
    (C6_zero_reps_absent "Plank").2 [⟨some 0, some 60, some 9.5⟩]
      ⟨some 0, some 60, some 9.5⟩ rfl rfl⟩

end Hevy

namespace Hevy

/-- C7 counterexample: for the set {reps 12, weight 50 kg, RPE 8} the code
computes a new target of 50 + 2.5 = 52.5 kg, which is not approximately
55 kg (the spec's scenario assumed a 5-unit increment; the configured
increment is 2.5 kg). -/
theorem C7_counterexample :
    (calculate_next_target "Bench Press" [⟨some 12, some 50, some 8⟩]).map
        (fun r => r.target) = some (.targetKg 52.5) ∧
    ¬ ((52.5 : ℚ) = 55) ∧ (55 - 52.5 : ℚ) = WEIGHT_INCREMENT_KG := by
  refine ⟨?_, by norm_num, by norm_num [WEIGHT_INCREMENT_KG]⟩
  norm_num [calculate_next_target, pymax, keyW, recommend_from, round2,
    roundHalfEven, GOAL_REPS, PROGRESSION_RPE_TRIGGER, WEIGHT_INCREMENT_KG]

/-- C7 (amended to the configured 2.5 kg increment): the set
{reps 12, weight 50 kg, RPE 8} yields INCREASE WEIGHT with a new target
weight of 52.5 kg. -/
theorem C7_scenario_increase :
    (calculate_next_target "Bench Press" [⟨some 12, some 50, some 8⟩]).map
        (fun r => (r.action, r.target))
      = some ("INCREASE WEIGHT", .targetKg 52.5) := by
  norm_num [calculate_next_target, pymax, keyW, recommend_from, round2,
    roundHalfEven, GOAL_REPS, PROGRESSION_RPE_TRIGGER, WEIGHT_INCREMENT_KG]

/-! ## The reference-set policy (C1) -/

/-- The fold performed by `pymax` starting from a current best. -/
def pyfold (key : WSet → ℚ) (best : WSet) (xs : List WSet) : WSet :=
  xs.foldl (fun b y => if key b < key y then y else b) best

theorem pymax_cons (key : WSet → ℚ) (x : WSet) (xs : List WSet) :
    pymax key (x :: xs) = some (pyfold key x xs) := rfl

theorem pyfold_spec (key : WSet → ℚ) (xs : List WSet) : ∀ best : WSet,
    (pyfold key best xs = best ∧ ∀ s ∈ xs, key s ≤ key best) ∨
    (∃ l₁ l₂, xs = l₁ ++ pyfold key best xs :: l₂ ∧
      key best < key (pyfold key best xs) ∧
      (∀ s ∈ l₁, key s < key (pyfold key best xs)) ∧
      (∀ s ∈ l₂, key s ≤ key (pyfold key best xs))) := by
  induction xs with
  | nil => exact fun best => Or.inl ⟨rfl, by simp⟩
  | cons y ys ih =>
    intro best
    by_cases h : key best < key y
    · have hstep : pyfold key best (y :: ys) = pyfold key y ys := by
        simp [pyfold, if_pos h]
      rcases ih y with ⟨heq, hall⟩ | ⟨l₁, l₂, hsplit, hlt, hl₁, hl₂⟩
      · refine Or.inr ⟨[], ys, ?_, ?_, by simp, ?_⟩
        · simp [hstep, heq]
        · rw [hstep, heq]; exact h
        · intro s hs; rw [hstep, heq]; exact hall s hs
      · refine Or.inr ⟨y :: l₁, l₂, ?_, ?_, ?_, ?_⟩
        · rw [hstep, List.cons_append]
          exact congrArg (List.cons y) hsplit
        · rw [hstep]; exact h.trans hlt
        · intro s hs
          rcases List.mem_cons.1 hs with rfl | hs
          · rw [hstep]; exact hlt
          · rw [hstep]; exact hl₁ s hs
        · intro s hs; rw [hstep]; exact hl₂ s hs
    · have hy : key y ≤ key best := le_of_not_lt h
      have hstep : pyfold key best (y :: ys) = pyfold key best ys := by
        simp [pyfold, if_neg h]
      rcases ih best with ⟨heq, hall⟩ | ⟨l₁, l₂, hsplit, hlt, hl₁, hl₂⟩
      · refine Or.inl ⟨by rw [hstep, heq], ?_⟩
        intro s hs
        rcases List.mem_cons.1 hs with rfl | hs
        · exact hy
        · exact hall s hs
      · refine Or.inr ⟨y :: l₁, l₂, ?_, ?_, ?_, ?_⟩
        · rw [hstep, List.cons_append]
          exact congrArg (List.cons y) hsplit
        · rw [hstep]; exact hlt
        · intro s hs
          rcases List.mem_cons.1 hs with rfl | hs
          · rw [hstep]; exact lt_of_le_of_lt hy hlt
          · rw [hstep]; exact hl₁ s hs
        · intro s hs; rw [hstep]; exact hl₂ s hs

/-- `pymax` returns the first element attaining the maximal key: every
element strictly before the returned one has a strictly smaller key, and
every element after it has a key no larger. -/
theorem pymax_first_max (key : WSet → ℚ) (sets : List WSet) (ws : WSet)
    (hmax : pymax key sets = some ws) :
    ∃ l₁ l₂, sets = l₁ ++ ws :: l₂ ∧ (∀ s ∈ l₁, key s < key ws) ∧
      (∀ s ∈ l₂, key s ≤ key ws) := by
  cases sets with
  | nil => simp [pymax] at hmax
  | cons x xs =>
    rw [pymax_cons] at hmax
    have hws : pyfold key x xs = ws := Option.some.inj hmax
    rcases pyfold_spec key xs x with ⟨heq, hall⟩ | ⟨l₁, l₂, hsplit, hxlt, hl₁, hl₂⟩
    · refine ⟨[], xs, ?_, by simp, ?_⟩
      · rw [← hws, heq]; rfl
      · intro s hs
        rw [← hws, heq]
        exact hall s hs
    · refine ⟨x :: l₁, l₂, ?_, ?_, ?_⟩
      · rw [← hws, List.cons_append]
        exact congrArg (List.cons x) hsplit
      · intro s hs
        rcases List.mem_cons.1 hs with rfl | hs
        · rw [← hws]; exact hxlt
        · rw [← hws]; exact hl₁ s hs
      · intro s hs; rw [← hws]; exact hl₂ s hs

end Hevy

namespace Hevy

/-- C1 counterexample: for the two-set list [{reps 12, weight 100, RPE 8},
{reps 5, weight 50, RPE 9.5}] the chronologically last set is the second
one, but the code classifies from the heavier first set: it answers
INCREASE WEIGHT where the last-set policy would answer DELOAD, so the two
recommendations differ. -/
theorem C1_counterexample :
    ([⟨some 12, some 100, some 8⟩, ⟨some 5, some 50, some 9.5⟩] :
        List WSet).getLast? = some ⟨some 5, some 50, some 9.5⟩ ∧
    (calculate_next_target "Bench Press"
        [⟨some 12, some 100, some 8⟩, ⟨some 5, some 50, some 9.5⟩]).map
        (fun r => r.action) = some "INCREASE WEIGHT" ∧
    (calculate_next_target_lastSet "Bench Press"
        [⟨some 12, some 100, some 8⟩, ⟨some 5, some 50, some 9.5⟩]).map
        (fun r => r.action) = some "DELOAD" ∧
    calculate_next_target "Bench Press"
        [⟨some 12, some 100, some 8⟩, ⟨some 5, some 50, some 9.5⟩]
      ≠ calculate_next_target_lastSet "Bench Press"
        [⟨some 12, some 100, some 8⟩, ⟨some 5, some 50, some 9.5⟩] := by
  have h2 : (calculate_next_target "Bench Press"
      [⟨some 12, some 100, some 8⟩, ⟨some 5, some 50, some 9.5⟩]).map
      (fun r => r.action) = some "INCREASE WEIGHT" := by
    norm_num [calculate_next_target, pymax, keyW, recommend_from,
      GOAL_REPS, PROGRESSION_RPE_TRIGGER]
  have h3 : (calculate_next_target_lastSet "Bench Press"
      [⟨some 12, some 100, some 8⟩, ⟨some 5, some 50, some 9.5⟩]).map
      (fun r => r.action) = some "DELOAD" := by
    norm_num [calculate_next_target_lastSet, List.getLast?, recommend_from,
      GOAL_REPS, PROGRESSION_RPE_TRIGGER]
  refine ⟨rfl, h2, h3, fun h => ?_⟩
  rw [h] at h2
  rw [h2] at h3
  simp at h3

/-- C1 (amended): the reference set `calculate_next_target` classifies from
is not the chronologically last set but the first-encountered set of maximal
weight (missing weights counting as 0): the list splits around the chosen
set, everything before it being strictly lighter and everything after it no
heavier, and the recommendation is computed from exactly that set. -/
theorem C1_reference_set (name : String) (sets : List WSet) (ws : WSet)
    (hmax : pymax keyW sets = some ws) :
    (∃ l₁ l₂, sets = l₁ ++ ws :: l₂ ∧ (∀ s ∈ l₁, keyW s < keyW ws) ∧
      (∀ s ∈ l₂, keyW s ≤ keyW ws)) ∧
    calculate_next_target name sets = recommend_from name ws :=
  ⟨pymax_first_max keyW sets ws hmax, calculate_eq_recommend name sets ws hmax⟩

/-- C1 witness: on the counterexample list the recommendation is computed
from the first (heaviest) set. -/
theorem C1_reference_set_witness :
    calculate_next_target "Bench Press"
        [⟨some 12, some 100, some 8⟩, ⟨some 5, some 50, some 9.5⟩]
      = recommend_from "Bench Press" ⟨some 12, some 100, some 8⟩ :=
  (C1_reference_set "Bench Press"
    [⟨some 12, some 100, some 8⟩, ⟨some 5, some 50, some 9.5⟩]
    ⟨some 12, some 100, some 8⟩ (by norm_num [pymax, pymax_cons, pyfold, keyW])).2

end Hevy

namespace Hevy

/-! ## The routine grouper (C8) -/

theorem lookup_append_single (acc : List (String × Workout)) (t s : String)
    (w : Workout) :
    (acc ++ [(s, w)]).lookup t =
      match acc.lookup t with
      | some v => some v
      | none => if t == s then some w else none := by
  induction acc with
  | nil =>
    cases h : t == s <;> simp [List.lookup, h]
  | cons p acc ih =>
    obtain ⟨a, b⟩ := p
    cases h : t == a
    · simpa [List.lookup, h] using ih
    · simp [List.lookup, h]

theorem groupGo_lookup (t : String) :
    ∀ (ws : List Workout) (acc : List (String × Workout)),
    (groupGo acc ws).lookup t =
      match acc.lookup t with
      | some v => some v
      | none => ws.find? (fun w => titleD w == t) := by
  intro ws
  induction ws with
  | nil =>
    intro acc
    cases hacc : acc.lookup t <;> simp [groupGo, hacc]
  | cons w rest ih =>
    intro acc
    by_cases hS : (acc.lookup (titleD w)).isSome
    · have hgo : groupGo acc (w :: rest) = groupGo acc rest := by
        simp [groupGo, hS]
      rw [hgo, ih acc]
      cases hacc : acc.lookup t with
      | some v => simp
      | none =>
        have hne : ¬ titleD w = t := by
          intro hEq
          rw [hEq, hacc] at hS
          simp at hS
        simp only []
        rw [List.find?_cons_of_neg]
        simp [hne]
    · have hgo : groupGo acc (w :: rest)
          = groupGo (acc ++ [(titleD w, w)]) rest := by
        simp [groupGo, hS]
      rw [hgo, ih (acc ++ [(titleD w, w)]), lookup_append_single]
      cases hacc : acc.lookup t with
      | some v => simp
      | none =>
        by_cases hts : t = titleD w
        · subst hts
          simp only [beq_self_eq_true, if_true]
          rw [List.find?_cons_of_pos]
          simp
        · rw [if_neg (by simp [hts]), List.find?_cons_of_neg]
          simp only [beq_iff_eq]
          exact fun h => hts h.symm

/-- C8: looking a title up in the grouped map returns exactly the first
workout of the input list bearing that title (after defaulting an absent
title to "Unknown Workout"); in particular a later workout with the same
title never overwrites the entry of an earlier (newer) one. -/
theorem C8_group_by_routine_first_wins (workouts : List Workout) (t : String) :
    (group_by_routine workouts).lookup t
      = workouts.find? (fun w => titleD w == t) := by
  rw [group_by_routine, groupGo_lookup t workouts []]
  simp [List.lookup]

end Hevy

namespace Hevy

/-! ## The workout fetcher (C9, C10) -/

theorem scanPage_preserves (parse : String → Option ℤ) (cutoff : ℤ) :
    ∀ (ws acc : List Workout),
    (∀ w ∈ acc, ∃ d, parse (normalizeZ (w.start_time.getD "")) = some d ∧
      cutoff ≤ d) →
    ∀ w ∈ (scanPage parse cutoff acc ws).1,
      ∃ d, parse (normalizeZ (w.start_time.getD "")) = some d ∧ cutoff ≤ d := by
  intro ws
  induction ws with
  | nil =>
    intro acc hacc
    simpa [scanPage] using hacc
  | cons w rest ih =>
    intro acc hacc
    cases hp : parse (normalizeZ (w.start_time.getD "")) with
    | none =>
      have hstep : scanPage parse cutoff acc (w :: rest)
          = scanPage parse cutoff acc rest := by
        simp [scanPage, hp]
      rw [hstep]
      exact ih acc hacc
    | some d =>
      by_cases hd : cutoff ≤ d
      · have hstep : scanPage parse cutoff acc (w :: rest)
            = scanPage parse cutoff (acc ++ [w]) rest := by
          simp [scanPage, hp, hd]
        rw [hstep]
        refine ih (acc ++ [w]) ?_
        intro v hv
        rcases List.mem_append.1 hv with hv | hv
        · exact hacc v hv
        · rw [List.mem_singleton.1 hv]
          exact ⟨d, hp, hd⟩
      · have hstep : scanPage parse cutoff acc (w :: rest) = (acc, true) := by
          simp [scanPage, hp, hd]
        rw [hstep]
        exact hacc

theorem fetchPages_preserves (parse : String → Option ℤ) (cutoff : ℤ)
    (fetch : ℕ → PageFetch) :
    ∀ (ps : List ℕ) (acc : List Workout),
    (∀ w ∈ acc, ∃ d, parse (normalizeZ (w.start_time.getD "")) = some d ∧
      cutoff ≤ d) →
    ∀ w ∈ fetchPages parse cutoff fetch acc ps,
      ∃ d, parse (normalizeZ (w.start_time.getD "")) = some d ∧ cutoff ≤ d := by
  intro ps
  induction ps with
  | nil =>
    intro acc hacc
    simpa [fetchPages] using hacc
  | cons p ps ih =>
    intro acc hacc
    cases hf : fetch p with
    | error =>
      have hstep : fetchPages parse cutoff fetch acc (p :: ps) = acc := by
        simp [fetchPages, hf]
      rw [hstep]
      exact hacc
    | ok pws =>
      cases pws with
      | nil =>
        have hstep : fetchPages parse cutoff fetch acc (p :: ps) = acc := by
          simp [fetchPages, hf]
        rw [hstep]
        exact hacc
      | cons v vs =>
        have hmem : ∀ w ∈ (scanPage parse cutoff acc (v :: vs)).1,
            ∃ d, parse (normalizeZ (w.start_time.getD "")) = some d ∧
              cutoff ≤ d :=
          scanPage_preserves parse cutoff (v :: vs) acc hacc
        cases hscan : scanPage parse cutoff acc (v :: vs) with
        | mk acc2 flag =>
          rw [hscan] at hmem
          cases flag
          · have hstep : fetchPages parse cutoff fetch acc (p :: ps)
                = fetchPages parse cutoff fetch acc2 ps := by
              simp [fetchPages, hf, hscan]
            rw [hstep]
            exact ih acc2 hmem
          · have hstep : fetchPages parse cutoff fetch acc (p :: ps) = acc2 := by
              simp [fetchPages, hf, hscan]
            rw [hstep]
            exact hmem

end Hevy

namespace Hevy

/-- C9: no page-level failure escapes `get_weekly_workouts` (its result type
is a plain workout list). (1) A failed page fetch — non-success status,
network error or malformed JSON — terminates pagination and returns exactly
the workouts accumulated so far; (2) in particular a failure on the first
page makes `get_weekly_workouts` return the empty list rather than an
error; (3) a workout whose timestamp does not parse is skipped and the
scan of the remaining workouts proceeds unchanged. -/
theorem C9_failures_recovered_locally :
    (∀ (parse : String → Option ℤ) (cutoff : ℤ) (fetch : ℕ → PageFetch)
      (acc : List Workout) (p : ℕ) (ps : List ℕ), fetch p = PageFetch.error →
      fetchPages parse cutoff fetch acc (p :: ps) = acc) ∧
    (∀ (parse : String → Option ℤ) (cutoff : ℤ) (fetch : ℕ → PageFetch),
      fetch 1 = PageFetch.error →
      get_weekly_workouts parse cutoff fetch = []) ∧
    (∀ (parse : String → Option ℤ) (cutoff : ℤ) (acc : List Workout)
      (w : Workout) (rest : List Workout),
      parse (normalizeZ (w.start_time.getD "")) = none →
      scanPage parse cutoff acc (w :: rest)
        = scanPage parse cutoff acc rest) := by
  refine ⟨?_, ?_, ?_⟩
  · intro parse cutoff fetch acc p ps herr
    simp [fetchPages, herr]
  · intro parse cutoff fetch herr
    simp [get_weekly_workouts, fetchPages, herr]
  · intro parse cutoff acc w rest hp
    simp [scanPage, hp]

/-- C9 witness: with every page failing, the accumulated workouts come back
untouched and `get_weekly_workouts` returns the empty list; a workout whose
timestamp never parses is skipped by the page scan. -/
theorem C9_failures_recovered_locally_witness :
    fetchPages (fun _ => none) 0 (fun _ => PageFetch.error)
        [⟨some "Push Day", some "2025-06-05T10:00:00Z", []⟩] [1, 2, 3]
      = [⟨some "Push Day", some "2025-06-05T10:00:00Z", []⟩] ∧
    get_weekly_workouts (fun _ => none) 0 (fun _ => PageFetch.error) = [] ∧
    scanPage (fun _ => none) 0 [] [⟨some "Push Day", some "bad-date", []⟩]
      = scanPage (fun _ => none) 0 [] [] :=
  ⟨C9_failures_recovered_locally.1 (fun _ => none) 0 (fun _ => PageFetch.error)
      [⟨some "Push Day", some "2025-06-05T10:00:00Z", []⟩] 1 [2, 3] rfl,
    C9_failures_recovered_locally.2.1 (fun _ => none) 0
      (fun _ => PageFetch.error) rfl,
    C9_failures_recovered_locally.2.2 (fun _ => none) 0 []
      ⟨some "Push Day", some "bad-date", []⟩ [] rfl⟩

/-- C10: every workout returned by `get_weekly_workouts` has a start_time
that, after the trailing-Z normalization, parses to a timestamp at or after
the cutoff — so the renderer's later parse of `start_time` cannot fail —
and the page scan returns the accumulated workouts immediately at the first
workout strictly older than the cutoff. -/
theorem C10_all_after_cutoff :
    (∀ (parse : String → Option ℤ) (cutoff : ℤ) (fetch : ℕ → PageFetch)
      (w : Workout), w ∈ get_weekly_workouts parse cutoff fetch →
      ∃ d, parse (normalizeZ (w.start_time.getD "")) = some d ∧ cutoff ≤ d) ∧
    (∀ (parse : String → Option ℤ) (cutoff : ℤ) (acc : List Workout)
      (w : Workout) (rest : List Workout) (d : ℤ),
      parse (normalizeZ (w.start_time.getD "")) = some d → d < cutoff →
      scanPage parse cutoff acc (w :: rest) = (acc, true)) := by
  constructor
  · intro parse cutoff fetch w hw
    exact fetchPages_preserves parse cutoff fetch [1, 2, 3] [] (by simp) w hw
  · intro parse cutoff acc w rest d hp hd
    simp [scanPage, hp, not_le.2 hd]

/-- A concrete parse environment for the C10 witness: recognizes exactly the
normalized form of the witness workout's timestamp. -/
def parseW (s : String) : Option ℤ :=
  if s == "2025-06-05T10:00:00+00:00" then some 5 else none

/-- A concrete fetch environment for the C10 witness: page 1 carries one
workout, the later pages are empty. -/
def fetchW (p : ℕ) : PageFetch :=
  if p == 1 then .ok [⟨some "Push Day", some "2025-06-05T10:00:00Z", []⟩]
  else .ok []

/-- C10 witness: the workout fetched through `parseW`/`fetchW` has a parsed
timestamp at or after the cutoff 0, and a scan hitting a workout dated
before the cutoff returns immediately. -/
theorem C10_all_after_cutoff_witness :
    (∃ d, parseW (normalizeZ
        ((⟨some "Push Day", some "2025-06-05T10:00:00Z", []⟩ : Workout
          ).start_time.getD "")) = some d ∧ (0 : ℤ) ≤ d) ∧
    scanPage (fun _ => some (-1)) 0 []
        [⟨some "Push Day", some "2025-06-05T10:00:00Z", []⟩] = ([], true) :=
  ⟨C10_all_after_cutoff.1 parseW 0 fetchW
      ⟨some "Push Day", some "2025-06-05T10:00:00Z", []⟩ (by decide),
    C10_all_after_cutoff.2 (fun _ => some (-1)) 0 []
      ⟨some "Push Day", some "2025-06-05T10:00:00Z", []⟩ [] (-1) rfl
      (by norm_num)⟩

end Hevy
